import Mathlib

/-!
Verification development for the ZeroMQ 3.x PubSub transport of the
cider-salsita-workflow repository (package
github.com/cider/go-cider/cider/transports/zmq3).

Shallow embedding conventions:
* a ZeroMQ frame (Go `[]byte`) is a `List Nat`, one entry per byte;
* a multi-frame message (Go `[][]byte`) is a `List (List Nat)`;
* fallible Go code returns `Option`/explicit result types; a Go `panic`
  is modelled as `none`;
* the single-goroutine command loop of `Transport.loop` is modelled as a
  step function on an explicit state record, driven by the sequence of
  `select` cases it fires.
-/

namespace ZmqPubSub

/-- A ZeroMQ frame: Go `[]byte`, one `Nat` per byte. -/
abbrev Frame := List Nat

/-- A multi-frame ZeroMQ message: Go `[][]byte`. -/
abbrev Message := List Frame

/-- Big-endian value of a byte list, as computed by `encoding/binary`
with `binary.BigEndian`: the head is the most significant byte. -/
def beNat : List Nat → Nat
  | [] => 0
  | b :: r => b * 256 ^ r.length + beNat r

/-- Big-endian byte list of width `k` for the value `n`
(most significant byte first), as produced by `encoding/binary`. -/
def beBytes : Nat → Nat → List Nat
  | 0, _ => []
  | k + 1, n => (n / 256 ^ k) % 256 :: beBytes k n

/-- Model of Go `binary.Read(bytes.NewReader(bs), binary.BigEndian, &seq)`
for a `uint32` target: it consumes exactly the first 4 bytes of the
reader and fails (returns an error, here `none`) when fewer than 4 bytes
are available. Extra bytes after the first 4 are left unread. -/
def readUint32BE (bs : List Nat) : Option Nat :=
  if 4 ≤ bs.length then some (beNat (bs.take 4)) else none

/-- `frameEmpty` from transport.go: the empty correlation frame. -/
def frameEmpty : Frame := []

/-- `frameHeader` from transport.go: `[]byte("CDR#PUBSUB@01")`,
the ASCII bytes of the protocol header string. -/
def frameHeader : Frame := "CDR#PUBSUB@01".data.map Char.toNat

/-- `frameEventType` from transport.go: `[]byte{messageTypeEvent}`,
i.e. the single byte 0. -/
def frameEventType : Frame := [0]

/-- `frameEventSeqTableType` from transport.go:
`[]byte{messageTypeEventSeqTable}`, i.e. the single byte 1. -/
def frameEventSeqTableType : Frame := [1]

/-- The `Event` struct of pubsub/event.go. `kind` and `publisher` are Go
strings built by `string(msg[0])` and `string(msg[1])`, kept here as the
underlying byte lists; `seq` is the decoded `uint32`. -/
structure Event where
  kind : Frame
  seq : Nat
  publisher : Frame
  body : Frame
deriving DecidableEq

/-- `newEvent` from pubsub/event.go. The Go function panics when
`binary.Read` on `msg[4]` fails (fewer than 4 bytes); the panic branch is
modelled as `none`. -/
def newEvent (msg : Message) : Option Event :=
  match readUint32BE (msg.getD 4 []) with
  | none => none
  | some seq => some ⟨msg.getD 0 [], seq, msg.getD 1 [], msg.getD 5 []⟩

/-- The SUB-socket callback of `Transport.loop` (transport.go lines
294-332): validate an inbound broadcast message and, when it is valid,
build the `Event` that the loop sends on `t.eventCh`. Each `return` of
the Go `switch` (a silently dropped message) is `none`; the callback has
no other effect, in particular it never touches the error queue. -/
def subCallback (msg : Message) : Option Event :=
  if msg.length ≠ 6 then none
  else if (msg.getD 0 []).length = 0 then none
  else if (msg.getD 1 []).length = 0 then none
  else if msg.getD 2 [] ≠ frameHeader then none
  else if msg.getD 3 [] ≠ frameEventType then none
  else if (msg.getD 4 []).length ≠ 4 then none
  else newEvent msg

/-- The sequence of `Event`s delivered on the event queue when the loop
receives the inbound broadcast messages `msgs` in order: each message is
passed to the SUB-socket callback, dropped messages contribute nothing. -/
def deliverEvents (msgs : List Message) : List Event :=
  msgs.filterMap subCallback

/-- Decoding of the `(event kind, sequence number)` pairs in frames
2..N of a sequence-table message: the Go loop of transport.go lines
281-289. A `binary.Read` failure on any sequence frame makes the Go
callback `return`, discarding the whole partially built table; this is
the `none` result. The Go `map[string]pubsub.EventSeqNum` is modelled as
the insertion-ordered list of key/value pairs. -/
def decodePairs : List Frame → Option (List (Frame × Nat))
  | [] => some []
  | [_] => none
  | kind :: seqF :: rest =>
    match readUint32BE seqF, decodePairs rest with
    | some s, some t => some ((kind, s) :: t)
    | _, _ => none

/-- The DEALER-socket callback of `Transport.loop` (transport.go lines
254-292): validate an inbound control-channel message and, when it is
valid, build the sequence table that the loop sends on `t.tableCh`.
Dropped messages are `none`. -/
def dealerCallback (msg : Message) : Option (List (Frame × Nat)) :=
  if msg.length < 2 then none
  else if msg.getD 0 [] ≠ frameHeader then none
  else if msg.getD 1 [] ≠ frameEventSeqTableType then none
  else if msg.length % 2 ≠ 0 then none
  else decodePairs (msg.drop 2)

/-- Spec-side helper: the condition, on the frames after the first two
of a control-channel message, that every sequence frame (every second
frame) holds at least 4 bytes and the frames pair up. -/
def seqFramesOK : List Frame → Bool
  | [] => true
  | [_] => false
  | _ :: seqF :: rest => decide (4 ≤ seqF.length) && seqFramesOK rest

/-- Spec-side helper: flatten a list of (topic, sequence-frame) pairs
into the frame list they occupy in a control-channel message. -/
def pairsFlat (ps : List (Frame × Frame)) : List Frame :=
  ps.foldr (fun p acc => p.1 :: p.2 :: acc) []

/-- Modelled from the spec: the payload values handled by the fixed
binary codec `codecs.MessagePack` (package
github.com/cider/go-cider/cider/utils/codecs, not part of this
repository). The spec fixes the codec to the MessagePack wire format;
this models the core scalar subset of MessagePack values: nil, booleans,
unsigned integers and raw strings. -/
inductive MPValue where
  | nil
  | boolean (b : Bool)
  | uint (n : Nat)
  | str (s : List Nat)
deriving DecidableEq

/-- Modelled from the spec: whether a value is representable on the
MessagePack wire, i.e. whether `codecs.MessagePack.Encode` can encode
it (unsigned integers up to 64 bits, strings up to 2^32-1 bytes). -/
def MPValue.wfB : MPValue → Bool
  | .uint n => decide (n < 18446744073709551616)
  | .str s => decide (s.length < 4294967296)
  | _ => true

namespace MessagePack

/-- Modelled from the spec: `codecs.MessagePack.Encode` for the value
subset above, following the MessagePack specification: positive fixint,
uint8/16/32/64 (0xcc-0xcf), nil (0xc0), booleans (0xc2/0xc3), fixstr
(0xa0+len) and str8/16/32 (0xd9-0xdb); multi-byte fields big-endian. -/
def encode : MPValue → List Nat
  | .nil => [192]
  | .boolean false => [194]
  | .boolean true => [195]
  | .uint n =>
    if n < 128 then [n]
    else if n < 256 then [204, n]
    else if n < 65536 then 205 :: beBytes 2 n
    else if n < 4294967296 then 206 :: beBytes 4 n
    else 207 :: beBytes 8 n
  | .str s =>
    if s.length < 32 then (160 + s.length) :: s
    else if s.length < 256 then 217 :: s.length :: s
    else if s.length < 65536 then 218 :: (beBytes 2 s.length ++ s)
    else 219 :: (beBytes 4 s.length ++ s)

/-- Modelled from the spec: `codecs.MessagePack.Decode` for the value
subset above: read one MessagePack value from the front of the byte
stream, returning the value and the unread remainder, or `none` on a
malformed or truncated stream. -/
def decodeOne (bs : List Nat) : Option (MPValue × List Nat) :=
  match bs with
  | [] => none
  | b :: rest =>
    if b < 128 then some (.uint b, rest)
    else if 160 ≤ b ∧ b < 192 then
      let l := b - 160
      if l ≤ rest.length then some (.str (rest.take l), rest.drop l) else none
    else if b = 192 then some (.nil, rest)
    else if b = 194 then some (.boolean false, rest)
    else if b = 195 then some (.boolean true, rest)
    else if b = 204 then
      match rest with
      | a :: r => some (.uint a, r)
      | [] => none
    else if b = 205 then
      if 2 ≤ rest.length then some (.uint (beNat (rest.take 2)), rest.drop 2) else none
    else if b = 206 then
      if 4 ≤ rest.length then some (.uint (beNat (rest.take 4)), rest.drop 4) else none
    else if b = 207 then
      if 8 ≤ rest.length then some (.uint (beNat (rest.take 8)), rest.drop 8) else none
    else if b = 217 then
      match rest with
      | l :: r => if l ≤ r.length then some (.str (r.take l), r.drop l) else none
      | [] => none
    else if b = 218 then
      if 2 ≤ rest.length then
        let l := beNat (rest.take 2)
        let r := rest.drop 2
        if l ≤ r.length then some (.str (r.take l), r.drop l) else none
      else none
    else if b = 219 then
      if 4 ≤ rest.length then
        let l := beNat (rest.take 4)
        let r := rest.drop 4
        if l ≤ r.length then some (.str (r.take l), r.drop l) else none
      else none
    else none

end MessagePack

/-- `Event.Unmarshal` from pubsub/event.go: decode the stored body bytes
with `codecs.MessagePack.Decode`. Decoding reads one value from the
front of `body`; failure is `none`. -/
def Event.unmarshal (e : Event) : Option MPValue :=
  (MessagePack.decodeOne e.body).map Prod.fst

/-- The Go error values the transport code can produce, as an enumerated
type: dealer send failures, SUB-socket subscribe/unsubscribe failures,
the MessagePack encode error of cmdPublish, `services.ErrTerminated`,
`MessageLoop.PushCommand` failures, `MessageLoop.Terminate` failures,
and the two sentinel errors of loop/loop.go. -/
inductive GoErr where
  | sendFailed
  | sockOpFailed
  | encodeFailed
  | terminated
  | pushFailed
  | termFailed
  | errEmptyPollItems
  | errTooManyPollItems
  | ioFailed
deriving DecidableEq

/-- The argument of a Go `Publish` call: the event object passed as
`interface{}`. `unencodable` stands for the Go values the MessagePack
codec rejects (channels, functions, ...), which are not `MPValue`s. -/
inductive PubObject where
  | encodable (v : MPValue)
  | unencodable (tag : Nat)
deriving DecidableEq

/-- Modelled from the spec: the result of `codecs.MessagePack.Encode` on
an arbitrary Go object (the codec itself is not in the repository). The
spec says serialization can fail and its failure is the one recoverable
error of Publish; encodable values serialize to their MessagePack bytes. -/
def encodeObject : PubObject → Option (List Nat)
  | .encodable v => some (MessagePack.encode v)
  | .unencodable _ => none

/-- The arguments carried by the three command kinds of transport.go
(`cmdPublish`, `cmdSubscribe`, `cmdUnsubscribe`). -/
inductive CmdArgs where
  | publish (eventKind : Frame) (eventObject : PubObject)
  | subscribe (pfx : Frame)
  | unsubscribe (pfx : Frame)
deriving DecidableEq

/-- Injected results of the socket operations a command handler
performs: `sendOK` is the result of `dealer.SendMessage`, `sockOK` the
result of `sub.SetSubscribe` / `sub.SetUnsubscribe`. -/
structure SockCtx where
  sendOK : Bool
  sockOK : Bool
deriving DecidableEq

/-- The observable effects of running one command handler: the value the
handler sends on `cmd.errCh` (`none` is Go `nil`), the messages it
successfully sends on the dealer socket, and whether it calls
`t.abort(err)` (and with which error). -/
structure CmdOutcome where
  reply : Option GoErr
  sent : List Message
  abortReq : Option (Option GoErr)
deriving DecidableEq

/-- The three command handlers of `Transport.loop` (transport.go lines
335-396), with socket results injected through `sock`:
* cmdPublish: encode the object (encode failure is replied to the caller
  only), then send [kind, header, event type, empty, payload];
* cmdSubscribe: `SetSubscribe`, then send [prefix, header, table type];
* cmdUnsubscribe: `SetUnsubscribe` only.
Every socket failure is replied to the caller and also aborts the
transport. -/
def runCmd (sock : SockCtx) : CmdArgs → CmdOutcome
  | .publish kind obj =>
    match encodeObject obj with
    | none => ⟨some .encodeFailed, [], none⟩
    | some payload =>
      if sock.sendOK then
        ⟨none, [[kind, frameHeader, frameEventType, frameEmpty, payload]], none⟩
      else ⟨some .sendFailed, [], some (some .sendFailed)⟩
  | .subscribe pfx =>
    if !sock.sockOK then ⟨some .sockOpFailed, [], some (some .sockOpFailed)⟩
    else if sock.sendOK then
      ⟨none, [[pfx, frameHeader, frameEventSeqTableType]], none⟩
    else ⟨some .sendFailed, [], some (some .sendFailed)⟩
  | .unsubscribe _ =>
    if sock.sockOK then ⟨none, [], none⟩
    else ⟨some .sockOpFailed, [], some (some .sockOpFailed)⟩

/-- The state of a `Transport` visible through its Go channels:
* `running`: the command loop is still in its for-select (equivalently,
  `closeAckCh` has not been closed yet);
* `err`: the `t.err` field returned by `Wait`;
* `errQueue`: the errors sent on `t.errorCh` so far, in order;
* `pendingAbort`: the contents of `t.abortCh` (capacity 1 in the Go
  code; the scenarios below never hold more than one entry);
* `replies`: the values delivered on the one-shot `errCh` reply slots of
  commands and Close calls, in order (`none` is Go `nil`);
* `sentMsgs`: all messages successfully sent on the dealer socket. -/
structure TransState where
  running : Bool
  err : Option GoErr
  errQueue : List GoErr
  pendingAbort : List (Option GoErr)
  replies : List (Option GoErr)
  sentMsgs : List Message
deriving DecidableEq

/-- The state of a freshly constructed transport. -/
def initialTransState : TransState :=
  ⟨true, none, [], [], [], []⟩

/-- One firing of a `select` case of the command loop of
`Transport.loop` (transport.go lines 409-441):
* `cmdEvt args sock pushOK`: a command received on `cmdCh`; `pushOK`
  injects the result of `messageLoop.PushCommand` (on failure the loop
  replies with the push error and aborts); on success the handler runs
  with the injected socket results, its reply goes to the caller and any
  `t.abort` it performs is queued on `abortCh`;
* `closeEvt`: a Close request received on `closeCh`: reply `nil`, then
  `t.abort(nil)`;
* `abortEvt termOK`: the `abortCh` case, consuming the queued abort: a
  non-nil error is recorded in `t.err` and sent on `t.errorCh`; then
  `messageLoop.Terminate` runs (result injected through `termOK`; on
  failure its error is sent on `t.errorCh` and becomes `t.err` when no
  error was recorded), the channels are closed and the loop returns. -/
inductive LoopEvt where
  | cmdEvt (args : CmdArgs) (sock : SockCtx) (pushOK : Bool)
  | closeEvt
  | abortEvt (termOK : Bool)

/-- The step function of the command loop on `TransState`: fire one
`select` case. Once the loop has returned (`running = false`) no case
can fire any more and the state is final. -/
def loopStep (s : TransState) (e : LoopEvt) : TransState :=
  if !s.running then s
  else
    match e with
    | .cmdEvt args sock pushOK =>
      if pushOK then
        let o := runCmd sock args
        { s with
          replies := s.replies ++ [o.reply]
          sentMsgs := s.sentMsgs ++ o.sent
          pendingAbort := s.pendingAbort ++ o.abortReq.toList }
      else
        { s with
          replies := s.replies ++ [some .pushFailed]
          pendingAbort := s.pendingAbort ++ [some .pushFailed] }
    | .closeEvt =>
      { s with
        replies := s.replies ++ [none]
        pendingAbort := s.pendingAbort ++ [none] }
    | .abortEvt termOK =>
      match s.pendingAbort with
      | [] => s
      | e :: rest =>
        let s1 :=
          match e with
          | some err => { s with err := some err, errQueue := s.errQueue ++ [err] }
          | none => s
        let s2 :=
          if termOK then s1
          else
            { s1 with
              errQueue := s1.errQueue ++ [.termFailed]
              err := some (s1.err.getD .termFailed) }
        { s2 with running := false, pendingAbort := rest }

/-- Run the command loop over a sequence of select-case firings. -/
def runLoop (s : TransState) (evts : List LoopEvt) : TransState :=
  evts.foldl loopStep s

/-- The value returned by `Transport.Wait` (transport.go lines 209-212)
once the transport has shut down: the recorded `t.err`. -/
def waitResult (s : TransState) : Option GoErr :=
  s.err

/-- The guarded abort of `Transport.abort` (transport.go lines 444-451)
with the capacity-1 `abortCh` modelled faithfully: the send is skipped
when the transport is already closed; when the buffer is empty the
error is enqueued; when the buffer is already full the send blocks its
caller forever, because the only goroutine that ever drains `abortCh`
is the loop itself. `none` is the blocked send. -/
def abortSend (closed : Bool) (pending : List (Option GoErr)) (e : Option GoErr) :
    Option (List (Option GoErr)) :=
  if closed then some pending
  else if pending.isEmpty then some (pending ++ [e])
  else none

/-- The observable outcome of a second Close call racing the shutdown:
the value it returns, whether the loop goroutine ends up blocked
forever on the full `abortCh`, and whether `Wait` ever returns. -/
structure CloseRaceOutcome where
  secondClose : Option GoErr
  loopDeadlocked : Bool
  waitReturns : Bool
deriving DecidableEq

/-- The Closing-window state: the loop has just processed a first Close
request (replied nil on its one-shot slot and queued `abort(nil)` into
`abortCh`) and is back at its select. -/
def windowState : TransState :=
  loopStep initialTransState .closeEvt

/-- A second Close issued concurrently inside the Closing window: its
unbuffered `closeCh` send is pending at the loop while the `abortCh`
read is also ready, and Go select picks between the two pseudo-randomly
(`pickClose`).
* Picking `closeCh` (transport.go line 417): the loop replies nil to
  the second Close, then runs `t.abort(nil)`; the guard finds the
  transport not yet closed and sends into the capacity-1 `abortCh`,
  still full with the first abort, so the loop blocks forever:
  `closeAckCh` never closes and `Wait` never returns.
* Picking `abortCh`: the loop consumes the pending abort and shuts down
  cleanly; the second Close, whose `closeCh` send now has no receiver,
  takes the closed-signal case of its select and returns the terminated
  error. -/
def closeDuringClosing (pickClose : Bool) : CloseRaceOutcome :=
  if pickClose then
    match abortSend false windowState.pendingAbort none with
    | some _ => ⟨none, false, true⟩
    | none => ⟨none, true, false⟩
  else
    let s := loopStep windowState (.abortEvt true)
    ⟨if s.running then none else some .terminated, false, true⟩

/-- Possible outcomes of a `Transport.exec` call (transport.go lines
226-235), i.e. of a public Publish/Subscribe/Unsubscribe call. -/
inductive ExecRes where
  | replied (e : Option GoErr)
  | blocked
deriving DecidableEq

/-- `Transport.exec` called after the command loop has returned
(`closeAckCh` closed). Its `select` has the `<-t.Closed()` case always
ready, and the send into the capacity-1 buffered `cmdCh` ready exactly
when the buffer has a free slot (`bufFree`); with both ready, Go select
picks one pseudo-randomly (`pickSend`). Picking the send parks the
command in a buffer no goroutine will ever read again, so the caller
blocks forever on its reply channel. -/
def execAfterShutdown (bufFree pickSend : Bool) : ExecRes :=
  if bufFree && pickSend then .blocked
  else .replied (some .terminated)

/-- A poll target of the socket multiplexer (loop/loop.go `PollItem`):
an owned socket paired with its inbound-message callback. The callback
is kept as the decoded output it may deliver to the owner. -/
structure PollItem where
  callback : Message → Option (Event ⊕ List (Frame × Nat))

/-- The result of `loop.New`: `fatal` models the Go `panic` calls (no
usable loop is ever returned and the failure is not an error return),
`failed` an error return from the socket/endpoint setup, `ok` a started
message loop. -/
inductive NewResult where
  | fatal (e : GoErr)
  | failed (e : GoErr)
  | ok
deriving DecidableEq

/-- `loop.New` from loop/loop.go (lines 47-93): panic on an empty poll
target list, panic on more than 255 poll targets, then perform the
endpoint and socket setup whose injected result is `io`. -/
def loopNew (items : List PollItem) (io : Option GoErr) : NewResult :=
  if items.length = 0 then .fatal .errEmptyPollItems
  else if 255 < items.length then .fatal .errTooManyPollItems
  else
    match io with
    | some e => .failed e
    | none => .ok

/-- The DEALER poll target of `Transport.loop`. -/
def dealerItem : PollItem :=
  ⟨fun m => (dealerCallback m).map Sum.inr⟩

/-- The SUB poll target of `Transport.loop`. -/
def subItem : PollItem :=
  ⟨fun m => (subCallback m).map Sum.inl⟩

/-- The poll-target list `Transport.loop` hands to `loop.New`. -/
def pubsubItems : List PollItem :=
  [dealerItem, subItem]

/-- Scenario: a Publish command whose dealer send fails, followed by the
loop consuming the abort that the publish handler queued. -/
def c5Trace : List LoopEvt :=
  [.cmdEvt (.publish [97] (.encodable .nil)) ⟨false, true⟩ true, .abortEvt true]

/-- A control-channel message that passes the four checks of the dealer
callback (count, header, type, parity) but carries a 1-byte sequence
frame. -/
def c3msg : Message :=
  [frameHeader, frameEventSeqTableType, [105, 115, 115, 117, 101, 115], [42]]

/-- A big-endian byte list of width `k` has length `k`. -/
theorem beBytes_length (k n : Nat) : (beBytes k n).length = k := by
  induction k generalizing n with
  | zero => rfl
  | succ k ih => simp [beBytes, ih]

/-- Reassembling the big-endian bytes of `n` recovers `n` modulo the
width. -/
theorem beNat_beBytes (k n : Nat) : beNat (beBytes k n) = n % 256 ^ k := by
  induction k with
  | zero => simp [beBytes, beNat, Nat.mod_one]
  | succ k ih =>
    rw [beBytes, beNat, beBytes_length, ih, Nat.mod_pow_succ]
    ring

/-- Reassembling the big-endian bytes of a value that fits the width is
the identity. -/
theorem beNat_beBytes_of_lt {k n : Nat} (h : n < 256 ^ k) :
    beNat (beBytes k n) = n := by
  rw [beNat_beBytes, Nat.mod_eq_of_lt h]

/-- Taking the width prefix of `beBytes k n ++ r` yields the bytes. -/
theorem take_beBytes_append (k n : Nat) (r : List Nat) :
    (beBytes k n ++ r).take k = beBytes k n := by
  have h := List.take_left (beBytes k n) r
  rwa [beBytes_length] at h

/-- Dropping the width prefix of `beBytes k n ++ r` yields `r`. -/
theorem drop_beBytes_append (k n : Nat) (r : List Nat) :
    (beBytes k n ++ r).drop k = r := by
  have h := List.drop_left (beBytes k n) r
  rwa [beBytes_length] at h

/-- Decoding one MessagePack value from an encoded value followed by
arbitrary trailing bytes recovers the value and leaves the trailer
unread, for every value the codec can encode. -/
theorem mp_decode_encode (v : MPValue) (h : v.wfB = true) (rest : List Nat) :
    MessagePack.decodeOne (MessagePack.encode v ++ rest) = some (v, rest) := by
  cases v with
  | nil => simp [MessagePack.encode, MessagePack.decodeOne]
  | boolean b => cases b <;> simp [MessagePack.encode, MessagePack.decodeOne]
  | uint n =>
    simp only [MPValue.wfB, decide_eq_true_eq] at h
    by_cases h1 : n < 128
    · simp [MessagePack.encode, MessagePack.decodeOne, h1]
    · by_cases h2 : n < 256
      · simp [MessagePack.encode, MessagePack.decodeOne, h1, h2]
      · by_cases h3 : n < 65536
        · have hlt : n < 256 ^ 2 := by norm_num; omega
          simp [MessagePack.encode, MessagePack.decodeOne, h1, h2, h3,
            List.cons_append, beBytes_length, take_beBytes_append,
            drop_beBytes_append, beNat_beBytes_of_lt hlt]
        · by_cases h4 : n < 4294967296
          · have hlt : n < 256 ^ 4 := by norm_num; omega
            simp [MessagePack.encode, MessagePack.decodeOne, h1, h2, h3, h4,
              List.cons_append, beBytes_length, take_beBytes_append,
              drop_beBytes_append, beNat_beBytes_of_lt hlt]
          · have hlt : n < 256 ^ 8 := by norm_num; omega
            simp [MessagePack.encode, MessagePack.decodeOne, h1, h2, h3, h4,
              List.cons_append, beBytes_length, take_beBytes_append,
              drop_beBytes_append, beNat_beBytes_of_lt hlt]
  | str s =>
    simp only [MPValue.wfB, decide_eq_true_eq] at h
    by_cases h1 : s.length < 32
    · have c1 : ¬(160 + s.length < 128) := by omega
      have c2 : 160 ≤ 160 + s.length ∧ 160 + s.length < 192 := by omega
      simp [MessagePack.encode, MessagePack.decodeOne, h1, c1, c2,
        List.cons_append, List.take_left, List.drop_left]
    · by_cases h2 : s.length < 256
      · simp [MessagePack.encode, MessagePack.decodeOne, h1, h2,
          List.cons_append, List.take_left, List.drop_left]
      · by_cases h3 : s.length < 65536
        · have hlt : s.length < 256 ^ 2 := by norm_num; omega
          simp [MessagePack.encode, MessagePack.decodeOne, h1, h2, h3,
            List.cons_append, List.append_assoc, beBytes_length,
            take_beBytes_append, drop_beBytes_append,
            beNat_beBytes_of_lt hlt, List.take_left, List.drop_left]
        · have hlt : s.length < 256 ^ 4 := by norm_num; omega
          simp [MessagePack.encode, MessagePack.decodeOne, h1, h2, h3,
            List.cons_append, List.append_assoc, beBytes_length,
            take_beBytes_append, drop_beBytes_append,
            beNat_beBytes_of_lt hlt, List.take_left, List.drop_left]

/-- The pair decoder succeeds exactly when the frames pair up and every
sequence frame holds at least 4 bytes. -/
theorem decodePairs_isSome (l : List Frame) :
    (decodePairs l).isSome = seqFramesOK l := by
  induction l using seqFramesOK.induct with
  | case1 => simp [decodePairs, seqFramesOK]
  | case2 x => simp [decodePairs, seqFramesOK]
  | case3 kind seqF rest ih =>
    by_cases h4 : 4 ≤ seqF.length <;>
      cases hdp : decodePairs rest <;>
        simp [decodePairs, seqFramesOK, readUint32BE, h4, hdp, ← ih]

/-- Flattening pairs doubles the length. -/
theorem pairsFlat_length (ps : List (Frame × Frame)) :
    (pairsFlat ps).length = 2 * ps.length := by
  induction ps with
  | nil => rfl
  | cons p ps ih => simp [pairsFlat] at ih ⊢; omega

/-- Decoding flattened pairs whose sequence frames all hold at least 4
bytes yields, in order, each topic paired with the big-endian value of
the first 4 bytes of its sequence frame. -/
theorem decodePairs_pairsFlat (ps : List (Frame × Frame))
    (h : ∀ p ∈ ps, 4 ≤ p.2.length) :
    decodePairs (pairsFlat ps)
      = some (ps.map fun p => (p.1, beNat (p.2.take 4))) := by
  induction ps with
  | nil => rfl
  | cons p ps ih =>
    have h4 : 4 ≤ p.2.length := h p (by simp)
    have hrest : ∀ q ∈ ps, 4 ≤ q.2.length := fun q hq => h q (by simp [hq])
    have ih2 := ih hrest
    simp only [pairsFlat] at ih2 ⊢
    simp [decodePairs, readUint32BE, h4, ih2]

/-- On flattened pairs, the sequence-frame width check holds exactly
when the sequence frame of every pair holds at least 4 bytes. -/
theorem seqFramesOK_pairsFlat (ps : List (Frame × Frame)) :
    seqFramesOK (pairsFlat ps) = ps.all fun p => decide (4 ≤ p.2.length) := by
  induction ps with
  | nil => rfl
  | cons p ps ih =>
    simp only [pairsFlat] at ih ⊢
    simp [seqFramesOK, ih]

/-- Claim C1: an inbound broadcast message is delivered as an Event on
the event queue exactly when it has 6 frames, non-empty frame 0 and
frame 1, frame 2 equal to the protocol header, frame 3 equal to the
event type marker 0, and a 4-byte frame 4; a message violating any of
these is dropped (no Event, and the callback produces no error by
construction), and a dropped message does not prevent delivery of a
subsequent valid message. -/
theorem c1_broadcast_validation :
    (∀ msg : Message, (subCallback msg).isSome ↔
      (msg.length = 6 ∧ msg.getD 0 [] ≠ [] ∧ msg.getD 1 [] ≠ [] ∧
       msg.getD 2 [] = frameHeader ∧ msg.getD 3 [] = frameEventType ∧
       (msg.getD 4 []).length = 4)) ∧
    (∀ (bad : Message) (rest : List Message), subCallback bad = none →
      deliverEvents (bad :: rest) = deliverEvents rest) := by
  constructor
  · intro msg
    unfold subCallback
    split_ifs with h1 h2 h3 h4 h5 h6 <;>
      simp_all [newEvent, readUint32BE, List.length_eq_zero]
  · intro bad rest hb
    simp [deliverEvents, List.filterMap_cons, hb]

/-- Claim C1 witness: an invalid (5-frame) message ahead of a valid one
changes nothing about the delivery of the valid one. -/
theorem c1_witness :
    deliverEvents [[[104], [104], frameHeader, frameEventType, [0, 0, 0, 1]],
        [[105], [112], frameHeader, frameEventType, [0, 0, 0, 7], [192]]]
      = deliverEvents [[[105], [112], frameHeader, frameEventType, [0, 0, 0, 7], [192]]] :=
  c1_broadcast_validation.2 _ _ (by decide)

/-- Claim C10: for every 6-frame broadcast message passing inbound
validation (arbitrary non-empty frames 0 and 1, the forced header and
type frames, an arbitrary 4-byte frame 4 and arbitrary frame 5), event
construction returns an Event (never the panic branch, which is
modelled as `none` inside `newEvent`) whose kind is frame 0, publisher
is frame 1, seq is the big-endian 32-bit value of frame 4, and body --
the exact bytes Unmarshal decodes from -- is frame 5. -/
theorem c10_event_construction :
    ∀ (f0 f1 f5 : Frame) (b0 b1 b2 b3 : Nat),
      f0 ≠ [] → f1 ≠ [] →
      subCallback [f0, f1, frameHeader, frameEventType, [b0, b1, b2, b3], f5]
        = some ⟨f0, ((b0 * 256 + b1) * 256 + b2) * 256 + b3, f1, f5⟩ := by
  intro f0 f1 f5 b0 b1 b2 b3 h0 h1
  have hb : beNat [b0, b1, b2, b3] = ((b0 * 256 + b1) * 256 + b2) * 256 + b3 := by
    show b0 * 256 ^ 3 + (b1 * 256 ^ 2 + (b2 * 256 ^ 1 + (b3 * 256 ^ 0 + 0))) = _
    ring
  unfold subCallback newEvent readUint32BE
  simp [List.length_eq_zero, h0, h1, hb]

/-- Claim C10 witness: a concrete valid message yields the expected
Event. -/
theorem c10_witness :
    subCallback [[97], [98], frameHeader, frameEventType, [0, 0, 1, 2], [196]]
      = some ⟨[97], 258, [98], [196]⟩ := by
  have h := c10_event_construction [97] [98] [196] 0 0 1 2 (by decide) (by decide)
  simpa using h

/-- Claim C2: for every topic and every payload the MessagePack codec
can encode, the payload frame sent by Publish (frame 4 of the message
the publish handler sends), placed as frame 5 of a valid broadcast
message, decodes through the Unmarshal of the resulting Event back to
the original payload. -/
theorem c2_publish_roundtrip :
    ∀ (topic pub : Frame) (s0 s1 s2 s3 : Nat) (v : MPValue),
      v.wfB = true → topic ≠ [] → pub ≠ [] →
      ((subCallback [topic, pub, frameHeader, frameEventType, [s0, s1, s2, s3],
          ((runCmd ⟨true, true⟩ (.publish topic (.encodable v))).sent.headD []).getD 4 []]).bind
        Event.unmarshal) = some v := by
  intro topic pub s0 s1 s2 s3 v hwf ht hp
  have hsent : ((runCmd ⟨true, true⟩ (.publish topic (.encodable v))).sent.headD []).getD 4 []
      = MessagePack.encode v := by
    simp [runCmd, encodeObject]
  have hdec : MessagePack.decodeOne (MessagePack.encode v) = some (v, []) := by
    have h := mp_decode_encode v hwf []
    simpa using h
  rw [hsent]
  unfold subCallback newEvent readUint32BE
  simp [List.length_eq_zero, ht, hp, Event.unmarshal, hdec]

/-- Claim C2 witness: a concrete publish/receive round trip on the
payload value uint 300. -/
theorem c2_witness :
    ((subCallback [[116], [112], frameHeader, frameEventType, [0, 0, 0, 1],
        ((runCmd ⟨true, true⟩ (.publish [116] (.encodable (.uint 300)))).sent.headD []).getD 4 []]).bind
      Event.unmarshal) = some (.uint 300) :=
  c2_publish_roundtrip [116] [112] 0 0 0 1 (.uint 300) (by decide) (by decide) (by decide)

/-- Claim C3 counterexample: this message has at least 2 frames, the
protocol header in frame 0, the sequence-table marker in frame 1 and an
even frame count -- the four conditions the claim lists -- yet the
dealer callback drops it (its sequence frame holds only 1 byte), so the
claimed biconditional is false at this input. -/
theorem c3_counterexample :
    2 ≤ c3msg.length ∧ c3msg.getD 0 [] = frameHeader ∧
    c3msg.getD 1 [] = frameEventSeqTableType ∧ c3msg.length % 2 = 0 ∧
    dealerCallback c3msg = none := by decide

/-- Claim C3 as amended: an inbound control-channel message is decoded
and delivered on the sequence-table queue if and only if it has at
least 2 frames, frame 0 equal to the protocol header, frame 1 equal to
the sequence-table type marker 1, an even total frame count, AND every
sequence frame holding at least 4 bytes; a valid message with pairs
(topic_i, seq_i) in frames 2..N decodes into exactly the insertion
sequence topic_i -> big-endian-32-bit value of the first 4 bytes of
seq_i. -/
theorem c3_table_decoding :
    (∀ msg : Message, (dealerCallback msg).isSome ↔
      (2 ≤ msg.length ∧ msg.getD 0 [] = frameHeader ∧
       msg.getD 1 [] = frameEventSeqTableType ∧ msg.length % 2 = 0 ∧
       seqFramesOK (msg.drop 2) = true)) ∧
    (∀ ps : List (Frame × Frame), (∀ p ∈ ps, 4 ≤ p.2.length) →
      dealerCallback (frameHeader :: frameEventSeqTableType :: pairsFlat ps)
        = some (ps.map fun p => (p.1, beNat (p.2.take 4)))) := by
  constructor
  · intro msg
    unfold dealerCallback
    split_ifs with h1 h2 h3 h4 <;>
      simp_all [decodePairs_isSome, Nat.lt_iff_add_one_le]
  · intro ps hps
    have hmod : ((pairsFlat ps).length + 1 + 1) % 2 = 0 := by
      rw [pairsFlat_length]
      omega
    have hlt : ¬((frameHeader :: frameEventSeqTableType :: pairsFlat ps).length < 2) := by
      simp only [List.length_cons]
      omega
    simp [dealerCallback, hlt, hmod, decodePairs_pairsFlat ps hps]

/-- Claim C3 witness: the spec example -- header, type marker 1, topic
"issues" (bytes 105 115 115 117 101 115), 4-byte big-endian 42 --
decodes to the table mapping "issues" to 42. -/
theorem c3_witness :
    dealerCallback [frameHeader, frameEventSeqTableType,
        [105, 115, 115, 117, 101, 115], [0, 0, 0, 42]]
      = some [([105, 115, 115, 117, 101, 115], 42)] := by
  have h := c3_table_decoding.2 [([105, 115, 115, 117, 101, 115], [0, 0, 0, 42])]
    (by decide)
  simpa [pairsFlat] using h

/-- Claim C9: the inbound control-channel decoder does not enforce the
4-byte sequence width. For any pair list placed after the header and
type frames: if every sequence frame holds at least 4 bytes the message
is accepted -- including frames longer than 4 bytes, each decoding from
its first 4 bytes only -- while if any sequence frame holds fewer than
4 bytes the entire message, earlier well-formed pairs included, is
dropped and nothing is delivered on the table queue. -/
theorem c9_seq_width_unenforced :
    ∀ ps : List (Frame × Frame),
      ((∀ p ∈ ps, 4 ≤ p.2.length) →
        dealerCallback (frameHeader :: frameEventSeqTableType :: pairsFlat ps)
          = some (ps.map fun p => (p.1, beNat (p.2.take 4)))) ∧
      ((∃ p ∈ ps, p.2.length < 4) →
        dealerCallback (frameHeader :: frameEventSeqTableType :: pairsFlat ps) = none) := by
  intro ps
  have hmod : ((pairsFlat ps).length + 1 + 1) % 2 = 0 := by
    rw [pairsFlat_length]
    omega
  constructor
  · intro hps
    simp [dealerCallback, hmod, decodePairs_pairsFlat ps hps]
  · intro hshort
    have hfalse : seqFramesOK (pairsFlat ps) = false := by
      rw [seqFramesOK_pairsFlat]
      rcases hshort with ⟨p, hmem, hlen⟩
      simp only [List.all_eq_false]
      exact ⟨p, hmem, by simpa using Nat.not_le.mpr hlen⟩
    cases hdp : decodePairs (pairsFlat ps) with
    | none => simp [dealerCallback, hmod, hdp]
    | some t =>
      have hs := decodePairs_isSome (pairsFlat ps)
      rw [hdp, hfalse] at hs
      simp at hs

/-- Claim C9 witness: a 5-byte sequence frame is accepted and decodes
from its first 4 bytes (0x01020304 = 16909060); a later 1-byte sequence
frame drops the whole message, discarding the earlier valid pair. -/
theorem c9_witness :
    dealerCallback [frameHeader, frameEventSeqTableType, [97], [1, 2, 3, 4, 5]]
      = some [([97], 16909060)] ∧
    dealerCallback [frameHeader, frameEventSeqTableType,
        [97], [0, 0, 0, 1], [98], [42]] = none := by
  constructor
  · have h := (c9_seq_width_unenforced [([97], [1, 2, 3, 4, 5])]).1 (by decide)
    simpa [pairsFlat] using h
  · exact (c9_seq_width_unenforced [([97], [0, 0, 0, 1]), ([98], [42])]).2 (by decide)

/-- Claim C4: with the codec and socket succeeding, the publish handler
sends exactly the 5-frame message [topic, "CDR#PUBSUB@01" (bytes 67 68
82 35 80 85 66 83 85 66 64 48 49), the single byte 0, the empty frame,
the MessagePack-serialized payload], and the subscribe handler sends
exactly the 3-frame message [topic prefix, "CDR#PUBSUB@01", the single
byte 1]; in both cases the caller gets a nil reply and no abort
happens. -/
theorem c4_wire_format :
    ∀ (kind pfx : Frame) (v : MPValue),
      runCmd ⟨true, true⟩ (.publish kind (.encodable v))
        = ⟨none, [[kind, [67, 68, 82, 35, 80, 85, 66, 83, 85, 66, 64, 48, 49],
            [0], [], MessagePack.encode v]], none⟩ ∧
      runCmd ⟨true, true⟩ (.subscribe pfx)
        = ⟨none, [[pfx, [67, 68, 82, 35, 80, 85, 66, 83, 85, 66, 64, 48, 49], [1]]], none⟩ := by
  intro kind pfx v
  have hh : frameHeader = [67, 68, 82, 35, 80, 85, 66, 83, 85, 66, 64, 48, 49] := by
    decide
  constructor <;>
    simp [runCmd, encodeObject, hh, frameEventType, frameEventSeqTableType, frameEmpty]

/-- Claim C7: a Publish whose payload the codec cannot encode replies
the encoding error to that caller only and leaves the transport state
untouched -- nothing is sent, the error queue, the recorded final error
and the pending aborts are unchanged, the loop keeps running -- and all
subsequent loop events behave exactly as if the failed Publish had
never happened. -/
theorem c7_encode_failure_isolated :
    ∀ (er : Option GoErr) (q : List GoErr) (pa : List (Option GoErr))
      (rp : List (Option GoErr)) (sm : List Message) (kind : Frame) (tag : Nat)
      (sock : SockCtx) (evts : List LoopEvt),
      loopStep ⟨true, er, q, pa, rp, sm⟩
          (.cmdEvt (.publish kind (.unencodable tag)) sock true)
        = ⟨true, er, q, pa, rp ++ [some .encodeFailed], sm⟩ ∧
      runLoop (loopStep ⟨true, er, q, pa, rp, sm⟩
          (.cmdEvt (.publish kind (.unencodable tag)) sock true)) evts
        = runLoop ⟨true, er, q, pa, rp ++ [some .encodeFailed], sm⟩ evts := by
  intro er q pa rp sm kind tag sock evts
  have h : loopStep ⟨true, er, q, pa, rp, sm⟩
      (.cmdEvt (.publish kind (.unencodable tag)) sock true)
      = ⟨true, er, q, pa, rp ++ [some .encodeFailed], sm⟩ := by
    simp [loopStep, runCmd, encodeObject]
  exact ⟨h, by rw [h]⟩

/-- Claim C5, evaluated at the failing input: after a dealer send
failure inside a Publish command the abort path runs exactly once --
the in-flight caller is replied the send error, exactly that one error
is published on the error queue, Wait returns that same error, and the
loop exits. But the final clause of the claim fails: a later
Publish/Subscribe/Unsubscribe call returns a terminated error only when
the stale cmdCh buffer is full or the select picks the closed case;
with the capacity-1 cmdCh buffer free (as it is after this shutdown)
and the select picking the ready send case, the call blocks forever
instead of returning. -/
theorem c5_send_failure_shutdown :
    (runLoop initialTransState c5Trace).replies = [some .sendFailed] ∧
    (runLoop initialTransState c5Trace).errQueue = [.sendFailed] ∧
    (runLoop initialTransState c5Trace).err = some .sendFailed ∧
    waitResult (runLoop initialTransState c5Trace) = some .sendFailed ∧
    (runLoop initialTransState c5Trace).running = false ∧
    (runLoop initialTransState c5Trace).pendingAbort = [] ∧
    execAfterShutdown true false = .replied (some .terminated) ∧
    execAfterShutdown false true = .replied (some .terminated) ∧
    execAfterShutdown false false = .replied (some .terminated) ∧
    execAfterShutdown true true = .blocked := by
  decide

/-- Claim C6, evaluated at the failing input: the first Close initiates
shutdown -- the loop replies nil on its one-shot slot and queues
abort(nil) -- and when the loop then consumes that abort it exits with
no recorded error, so Wait returns nil and a second Close issued after
that point returns the terminated error without blocking. But the
claimed behaviour fails inside the Closing window: with shutdown
already underway (windowState, loop still at its select, abortCh full),
a concurrent second Close whose closeCh rendezvous the select picks is
replied nil -- not the terminated error -- and the loop then blocks
forever sending abort(nil) into the full capacity-1 abortCh, so the
closed signal is never raised and Wait never returns. -/
theorem c6_close_race :
    windowState.replies = [none] ∧
    windowState.running = true ∧
    windowState.pendingAbort = [none] ∧
    (loopStep windowState (.abortEvt true)).running = false ∧
    waitResult (loopStep windowState (.abortEvt true)) = none ∧
    (closeDuringClosing false).secondClose = some .terminated ∧
    (closeDuringClosing false).waitReturns = true ∧
    (closeDuringClosing true).secondClose = none ∧
    (closeDuringClosing true).loopDeadlocked = true ∧
    (closeDuringClosing true).waitReturns = false := by
  decide

/-- Claim C8: constructing the socket multiplexer with zero poll
targets or more than 255 poll targets always fails fatally (the Go
panic, which never returns a usable loop), with the respective sentinel
error; for any list of 1 to 255 poll targets the construction never
fails fatally, whatever the injected socket setup result. -/
theorem c8_loop_construction_bounds :
    ∀ (items : List PollItem) (io : Option GoErr),
      (items.length = 0 → loopNew items io = .fatal .errEmptyPollItems) ∧
      (255 < items.length → loopNew items io = .fatal .errTooManyPollItems) ∧
      (1 ≤ items.length → items.length ≤ 255 → ∀ e, loopNew items io ≠ .fatal e) := by
  intro items io
  refine ⟨fun h0 => by simp [loopNew, h0], fun hg => ?_, fun hl hu e => ?_⟩
  · have h0 : items.length ≠ 0 := by omega
    simp [loopNew, h0, hg]
  · have h0 : items.length ≠ 0 := by omega
    have hg : ¬(255 < items.length) := by omega
    cases io <;> simp [loopNew, h0, hg]

/-- Claim C8 witness: the empty list and a 256-item list fail fatally
with the respective errors, while the 2-item poll target list of the
transport itself does not fail fatally. -/
theorem c8_witness :
    loopNew [] none = .fatal .errEmptyPollItems ∧
    loopNew (List.replicate 256 subItem) none = .fatal .errTooManyPollItems ∧
    loopNew pubsubItems none ≠ .fatal .errEmptyPollItems :=
  ⟨(c8_loop_construction_bounds [] none).1 rfl,
   (c8_loop_construction_bounds (List.replicate 256 subItem) none).2.1
     (by rw [List.length_replicate] ; omega),
   (c8_loop_construction_bounds pubsubItems none).2.2 (by decide) (by decide)
     .errEmptyPollItems⟩

end ZmqPubSub
